import Mathlib

/-!
# cloudrun-logs-mcp: filter construction and result normalisation

A shallow embedding of `logs/logs.go` (package `logs`): the filter builder
`buildFilter`, the pull loop of `GetCloudRunLogs` with its payload dispatch,
and the descriptor conversion of `GetCloudRunServices`.

Conventions of the embedding.

* A Go `string` is a Lean `String`; a Go slice is a `List`, and where the code
  can return a nil slice the slice is an `Option (List _)` with `none` for nil.
* A Go `error` is the text of its message; `(value, error)` results are pairs
  whose second component is `none` for a nil error.
* A Go `map[string]T` is an association list read with `goMapGet` (a missing
  key reads as the zero value); a possibly-nil map is an `Option` of one.
* The functions of Go's standard library and of the Google client libraries
  that the code calls (`Time.Format`, `time.Parse`, `time.Now`,
  `Severity.String`, `fmt.Sprintf("%v", _)`, the two remote calls) are not part
  of the repository; they are taken as parameters (`GoLib`, `LogBackend`,
  `RunBackend`).
* `fmt.Sprintf` with a format holding the single verb `%s` and a string
  argument is the concatenation of the format's two halves around the
  argument.
* A run-time panic (index out of range) is the outcome `Outcome.fault`.
-/

set_option autoImplicit false

namespace CloudRunLogs

/-! ## Data model -/

/-- Go `time.Time`: seconds and nanoseconds since January 1, year 1 00:00:00 UTC,
with the offset (seconds east of UTC) of the location it is presented in. -/
structure Time where
  sec : Int
  nsec : Nat
  offset : Int
deriving DecidableEq, Repr

/-- The value `time.Time{}`. -/
def Time.zero : Time := { sec := 0, nsec := 0, offset := 0 }

/-- Go `Time.IsZero`: the instant January 1, year 1, 00:00:00 UTC. -/
def Time.IsZero (t : Time) : Bool := t.sec == 0 && t.nsec == 0

/-- A dynamic Go value (`interface{}`), as far as the type switch of
`GetCloudRunLogs` tells values apart: a `string`, a `map[string]interface{}`,
a `*structpb.Struct` with its fields, or a value of any other dynamic type
(the nil interface included), which is identified by an uninterpreted tag.

The payload of a record that `iter.Next()` yields is a `string` for a text
payload, a `*structpb.Struct` for a JSON payload and a protocol-buffer message
(one of the other types) for a proto payload: the logadmin client never
delivers a `map[string]interface{}`. -/
inductive Value where
  | str (s : String)
  | mapping (m : List (String × Value))
  | pbStruct (fields : List (String × Value))
  | other (tag : Nat)
deriving Repr

/-- The library functions the code calls. -/
structure GoLib where
  /-- Go `t.Format(time.RFC3339)`. -/
  formatRFC3339 : Time → String
  /-- Go `time.Parse(time.RFC3339, s)`: `none` when the error is non-nil. -/
  parseRFC3339 : String → Option Time
  /-- Go `logging.Severity.String`. -/
  severityString : Int → String
  /-- Go `fmt.Sprintf("%v", v)`. -/
  sprintV : Value → String

/-- Looking a key up in a Go map: its binding, if the key is present. -/
def goMapLookup {β : Type} (m : List (String × β)) (key : String) : Option β :=
  match m with
  | [] => none
  | (k, v) :: rest => if k == key then some v else goMapLookup rest key

/-- Reading a Go map of strings, `m[key]`: the empty string when the key is
absent, and also when the map is nil. -/
def goMapGet (m : Option (List (String × String))) (key : String) : String :=
  match m with
  | none => ""
  | some bindings => (goMapLookup bindings key).getD ""

/-- Go struct `FilterOptions`. -/
structure FilterOptions where
  ProjectID : String
  ServiceName : String
  StartTime : Time
  EndTime : Time
  LogLevel : String
  Keywords : List String
  Limit : Int

/-! ## `buildFilter` -/

/-- The literal of `fmt.Sprintf("resource.type=\"cloud_run_revision\"")`. -/
def baseClause : String := "resource.type=\"cloud_run_revision\""

/-- The text of `fmt.Sprintf(" AND resource.labels.service_name=\"%s\"", name)`. -/
def serviceClause (name : String) : String :=
  " AND resource.labels.service_name=\"" ++ name ++ "\""

/-- The text of `fmt.Sprintf(" AND timestamp>=\"%s\"", stamp)`. -/
def startClause (stamp : String) : String :=
  " AND timestamp>=\"" ++ stamp ++ "\""

/-- The text of `fmt.Sprintf(" AND timestamp<=\"%s\"", stamp)`. -/
def endClause (stamp : String) : String :=
  " AND timestamp<=\"" ++ stamp ++ "\""

/-- The text of `fmt.Sprintf(" AND severity>=\"%s\"", level)`. -/
def severityClause (level : String) : String :=
  " AND severity>=\"" ++ level ++ "\""

/-- The text of `fmt.Sprintf(" AND textPayload:\"%s\"", keyword)`. -/
def keywordClause (keyword : String) : String :=
  " AND textPayload:\"" ++ keyword ++ "\""

/-- One iteration of the loop `for _, keyword := range opts.Keywords`. -/
def keywordStep (filter : String) (keyword : String) : String :=
  if keyword != "" then filter ++ keywordClause keyword else filter

/-- Go `buildFilter`: the statements `filter += ...` in the order of the source. -/
def buildFilter (lib : GoLib) (opts : FilterOptions) : String :=
  let filter := baseClause
  let filter :=
    if opts.ServiceName != "" then filter ++ serviceClause opts.ServiceName else filter
  let filter :=
    if !opts.StartTime.IsZero then
      filter ++ startClause (lib.formatRFC3339 opts.StartTime)
    else filter
  let filter :=
    if !opts.EndTime.IsZero then
      filter ++ endClause (lib.formatRFC3339 opts.EndTime)
    else filter
  let filter :=
    if opts.LogLevel != "" then filter ++ severityClause opts.LogLevel else filter
  opts.Keywords.foldl keywordStep filter

/-! ## `GetCloudRunLogs` -/

/-- The fields of a raw record (`logging.Entry`) that the code reads. A JSON
payload with the given fields arrives as `Value.pbStruct fields`. -/
structure Entry where
  Timestamp : Time
  Severity : Int
  Labels : Option (List (String × String))
  Payload : Value

/-- Go struct `LogEntry`. -/
structure LogEntry where
  Timestamp : Time
  Severity : String
  Message : String
  Labels : Option (List (String × String))

/-- One result of `iter.Next()` other than `iterator.Done`: a record with a nil
error, or an error (given by its message). -/
inductive NextResult where
  | record (entry : Entry)
  | failure (err : String)

/-- The type switch on `entry.Payload` that sets `logEntry.Message`: the arms
`case string`, `case map[string]interface{}` and `default`. A `*structpb.Struct`
has no arm of its own and is handled by `default`. -/
def payloadMessage (lib : GoLib) (p : Value) : String :=
  match p with
  | Value.str s => s
  | Value.mapping m =>
    match goMapLookup m "message" with
    | some (Value.str msg) => msg
    | _ => lib.sprintV p
  | _ => lib.sprintV p

/-- The conversion of one raw record in the body of the pull loop. -/
def toLogEntry (lib : GoLib) (entry : Entry) : LogEntry :=
  { Timestamp := entry.Timestamp
    Severity := lib.severityString entry.Severity
    Labels := entry.Labels
    Message := payloadMessage lib entry.Payload }

/-- What `GetCloudRunLogs` returns, `(entries, err)`, with the number of calls
of `iter.Next` it made. -/
structure LogsResult where
  entries : Option (List LogEntry)
  err : Option String
  pulls : Nat

/-- The loop `for { entry, err := iter.Next() ... }` of `GetCloudRunLogs`.
The iterator is the list of the results its successive `Next` calls give before
it reports `iterator.Done`; `entries` and `count` are the variables of the
source and `pulls` counts the calls of `Next` made so far. `count` is a Go
`int`; it is at most the number of entries held, so it never wraps. -/
def pullLoop (lib : GoLib) (limit : Int) :
    List NextResult → List LogEntry → Int → Nat → LogsResult
  | [], entries, _, pulls =>
    { entries := some entries, err := none, pulls := pulls + 1 }
  | NextResult.failure err :: _, _, _, pulls =>
    { entries := none, err := some ("iter.Next: " ++ err), pulls := pulls + 1 }
  | NextResult.record entry :: rest, entries, count, pulls =>
    let entries := entries ++ [toLogEntry lib entry]
    let count := count + 1
    if limit > 0 ∧ count ≥ limit then
      { entries := some entries, err := none, pulls := pulls + 1 }
    else
      pullLoop lib limit rest entries count (pulls + 1)

/-- The logging service as the code uses it. -/
structure LogBackend where
  /-- Go `logadmin.NewClient(ctx, projectID, ...)`: its error, `none` when nil. -/
  newClient : String → Option String
  /-- Go `client.Entries(ctx, logadmin.Filter(filter))` on the client of a
  project: the results of the iterator before `iterator.Done`. -/
  entries : String → String → List NextResult

/-- Go `GetCloudRunLogs`. -/
def GetCloudRunLogs (lib : GoLib) (backend : LogBackend) (opts : FilterOptions) :
    LogsResult :=
  match backend.newClient opts.ProjectID with
  | some err => { entries := none, err := some ("logadmin.NewClient: " ++ err), pulls := 0 }
  | none =>
    let filter := buildFilter lib opts
    pullLoop lib opts.Limit (backend.entries opts.ProjectID filter) [] 0 0

/-! ## `GetCloudRunServices` -/

/-- One element of `item.Status.Conditions`; the code reads its `Status`. -/
structure Condition where
  Status : String

/-- The fields of `item.Metadata` that the code reads. -/
structure ObjectMeta where
  Name : String
  CreationTimestamp : String
  Annotations : Option (List (String × String))

/-- The fields of `item.Status` that the code reads. -/
structure ServiceStatus where
  Url : String
  Conditions : List Condition

/-- A service descriptor, one element of `resp.Items`, with its metadata and
status blocks present. -/
structure Service where
  Metadata : ObjectMeta
  Status : ServiceStatus

/-- Go struct `ServiceInfo`. -/
structure ServiceInfo where
  Name : String
  Description : String
  URL : String
  Status : String
  Region : String
  CreateTime : Time
  UpdateTime : Time

/-- How a call ends: it returns `(value, err)`, or it panics. -/
inductive Outcome (α : Type) where
  | returned (value : Option (List α)) (err : Option String)
  | fault (msg : String)

/-- The body of the loop `for _, item := range resp.Items`: the `ServiceInfo`
built from `item`, or `none` when `item.Status.Conditions[0]` is out of range.
`now` is what `time.Now()` gives during this iteration; a failed `time.Parse`
gives `time.Time{}` and its error is dropped. -/
def convertItem (lib : GoLib) (now : Time) (region : String) (item : Service) :
    Option ServiceInfo :=
  let createTime := (lib.parseRFC3339 item.Metadata.CreationTimestamp).getD Time.zero
  let updateTime :=
    if item.Metadata.Annotations.isSome ∧
        goMapGet item.Metadata.Annotations "client.knative.dev/user-image" ≠ "" then
      now
    else createTime
  match item.Status.Conditions with
  | [] => none
  | first :: _ =>
    some
      { Name := item.Metadata.Name
        Description := goMapGet item.Metadata.Annotations "description"
        URL := item.Status.Url
        Status := first.Status
        Region := region
        CreateTime := createTime
        UpdateTime := updateTime }

/-- The loop `for _, item := range resp.Items` with its accumulator `services`;
`index` is the position of the next item and `clock index` the reading of
`time.Now()` while that item is processed. `none` when an iteration panics. -/
def convertItems (lib : GoLib) (clock : Nat → Time) (region : String) :
    List Service → Nat → List ServiceInfo → Option (List ServiceInfo)
  | [], _, services => some services
  | item :: rest, index, services =>
    match convertItem lib (clock index) region item with
    | none => none
    | some service => convertItems lib clock region rest (index + 1) (services ++ [service])

/-- The Cloud Run control plane as the code uses it. -/
structure RunBackend where
  /-- Go `run.NewService(ctx, ...)`: its error, `none` when nil. -/
  newService : Option String
  /-- Go `runService.Projects.Locations.Services.List(parent).Do()`: the error,
  or `resp.Items`. -/
  list : String → Except String (List Service)
  /-- Go `time.Now()` while the item at a position is processed. -/
  clock : Nat → Time

/-- The region used after `if region == "" { region = "us-central1" }`. -/
def effectiveRegion (region : String) : String :=
  if region == "" then "us-central1" else region

/-- The text of `fmt.Sprintf("projects/%s/locations/%s", projectID, region)`. -/
def parentPath (projectID region : String) : String :=
  "projects/" ++ projectID ++ "/locations/" ++ region

/-- Go `GetCloudRunServices`. -/
def GetCloudRunServices (lib : GoLib) (backend : RunBackend)
    (projectID region : String) : Outcome ServiceInfo :=
  match backend.newService with
  | some err => Outcome.returned none (some ("run.NewService: " ++ err))
  | none =>
    let region := effectiveRegion region
    let parent := parentPath projectID region
    match backend.list parent with
    | Except.error err =>
      Outcome.returned none
        (some ("runService.Projects.Locations.Services.List: " ++ err))
    | Except.ok items =>
      match convertItems lib backend.clock region items 0 [] with
      | none => Outcome.fault "index out of range [0] with length 0"
      | some services => Outcome.returned (some services) none

/-! ## The filter in the words of the specification -/

/-- The clause list of the filter in the words of the specification: the base
clause, then at most one clause for each populated optional field in the fixed
order service, start, end, severity, then one clause for each non-empty
keyword in the order of `Keywords`. -/
def specFilterClauses (lib : GoLib) (opts : FilterOptions) : List String :=
  ["resource.type=\"cloud_run_revision\""]
    ++ (if opts.ServiceName = "" then []
        else [" AND resource.labels.service_name=\"" ++ opts.ServiceName ++ "\""])
    ++ (if opts.StartTime.IsZero = true then []
        else [" AND timestamp>=\"" ++ lib.formatRFC3339 opts.StartTime ++ "\""])
    ++ (if opts.EndTime.IsZero = true then []
        else [" AND timestamp<=\"" ++ lib.formatRFC3339 opts.EndTime ++ "\""])
    ++ (if opts.LogLevel = "" then []
        else [" AND severity>=\"" ++ opts.LogLevel ++ "\""])
    ++ (opts.Keywords.filter (fun k => decide (k ≠ ""))).map
        (fun k => " AND textPayload:\"" ++ k ++ "\"")

/-! ## Sample inputs -/

/-- A sample instance of the library functions, for evaluating the
definitions at concrete inputs: it formats and parses the two instants
2024-01-01T00:00:00Z and 2024-01-02T00:00:00Z, names the severities 200 and
500, prints a `*structpb.Struct` with a single string field in the text form of
protocol buffers, `fields:{key:"k" value:{string_value:"v"}}`, and prints every
other value that is not a string as `<value>`. -/
def sampleLib : GoLib :=
  { formatRFC3339 := fun t =>
      if t.sec = 63839664000 then "2024-01-01T00:00:00Z"
      else if t.sec = 63839750400 then "2024-01-02T00:00:00Z"
      else "0001-01-01T00:00:00Z"
    parseRFC3339 := fun s =>
      if s = "2024-01-01T00:00:00Z" then some { sec := 63839664000, nsec := 0, offset := 0 }
      else if s = "2024-01-02T00:00:00Z" then some { sec := 63839750400, nsec := 0, offset := 0 }
      else none
    severityString := fun n =>
      if n = 200 then "Info" else if n = 500 then "Error" else "Default"
    sprintV := fun v =>
      match v with
      | Value.str s => s
      | Value.pbStruct [(k, Value.str v)] =>
        "fields:\x7bkey:\"" ++ k ++ "\" value:\x7bstring_value:\"" ++ v ++ "\"\x7d\x7d"
      | _ => "<value>" }

/-- The instant 2024-01-01T00:00:00Z. -/
def sampleStart : Time := { sec := 63839664000, nsec := 0, offset := 0 }

/-- The instant 2024-01-02T00:00:00Z. -/
def sampleEnd : Time := { sec := 63839750400, nsec := 0, offset := 0 }

/-- Options with every field populated and two keywords. -/
def sampleFullOpts : FilterOptions :=
  { ProjectID := "my-project"
    ServiceName := "api"
    StartTime := sampleStart
    EndTime := sampleEnd
    LogLevel := "ERROR"
    Keywords := ["timeout", "refused"]
    Limit := 3 }

/-- Only the project id (and a limit) set. -/
def sampleProjectOnly : FilterOptions :=
  { ProjectID := "my-project"
    ServiceName := ""
    StartTime := Time.zero
    EndTime := Time.zero
    LogLevel := ""
    Keywords := []
    Limit := 100 }


/-- A raw record with a text payload, stamped `i` seconds after the sample
start. -/
def sampleEntry (i : Nat) : Entry :=
  { Timestamp := { sec := 63839664000 + i, nsec := 0, offset := 0 }
    Severity := 200
    Labels := some [("instanceId", "abc")]
    Payload := Value.str "hello" }

/-- A raw record with the JSON payload `{"message": "hi"}`, as the iterator
delivers it. -/
def sampleJsonEntry : Entry :=
  { Timestamp := sampleStart
    Severity := 200
    Labels := none
    Payload := Value.pbStruct [("message", Value.str "hi")] }

/-- A logging service whose client is created without error and whose
iterator gives the listed results and then `iterator.Done`. -/
def sampleLogBackend (results : List NextResult) : LogBackend :=
  { newClient := fun _ => none
    entries := fun _ _ => results }


/-- Options with only the project id set and the given limit. -/
def sampleLimitOpts (limit : Int) : FilterOptions :=
  { sampleProjectOnly with Limit := limit }


/-- A descriptor named `name` with one condition `True`, the given creation
timestamp and the given annotations. -/
def sampleService (name stamp : String) (annotations : Option (List (String × String))) :
    Service :=
  { Metadata := { Name := name, CreationTimestamp := stamp, Annotations := annotations }
    Status := { Url := "https://" ++ name ++ ".a.run.app", Conditions := [{ Status := "True" }] } }

/-- A control plane whose client is created without error, whose listing
gives `items` for every parent path and whose clock always reads the sample
start. -/
def sampleRunBackend (items : List Service) : RunBackend :=
  { newService := none
    list := fun _ => Except.ok items
    clock := fun _ => sampleStart }

/-- A descriptor whose list of conditions is empty. -/
def sampleConditionless : Service :=
  { Metadata := { Name := "fresh", CreationTimestamp := "2024-01-01T00:00:00Z",
                  Annotations := none }
    Status := { Url := "", Conditions := [] } }

/-! ## Strings -/

/-- Joining no strings gives the empty string. -/
theorem join_nil : String.join ([] : List String) = "" := rfl

/-- Joining a list of strings puts its head in front of the joined tail. -/
theorem join_cons (a : String) (l : List String) :
    String.join (a :: l) = a ++ String.join l := by
  apply String.ext
  simp [String.join_eq]

/-- Joining distributes over the concatenation of lists. -/
theorem join_append (l₁ l₂ : List String) :
    String.join (l₁ ++ l₂) = String.join l₁ ++ String.join l₂ := by
  apply String.ext
  simp [String.join_eq]

/-! ## The filter builder -/

/-- The keyword loop appends to the filter built so far one clause per
non-empty keyword, in the order of the keywords. -/
theorem foldl_keywordStep (keywords : List String) (filter : String) :
    keywords.foldl keywordStep filter =
      filter ++ String.join
        ((keywords.filter (fun k => decide (k ≠ ""))).map keywordClause) := by
  induction keywords generalizing filter with
  | nil => simp [join_nil]
  | cons k rest ih =>
    simp only [List.foldl_cons, ih, keywordStep]
    by_cases hk : k = ""
    · simp [hk]
    · simp [hk, join_cons, String.append_assoc]

/-- C1: `buildFilter` returns the concatenation of the specification's clause
list (base, then service, start, end, severity each at most once and exactly
when populated, then one keyword clause per non-empty keyword in order); and
when all fields are populated and the keywords are two non-empty strings the
result is the seven clauses joined by `" AND "`, the values verbatim. -/
theorem buildFilter_eq_spec (lib : GoLib) (opts : FilterOptions) :
    buildFilter lib opts = String.join (specFilterClauses lib opts) ∧
    (∀ a b : String, opts.ServiceName ≠ "" → opts.StartTime.IsZero = false →
      opts.EndTime.IsZero = false → opts.LogLevel ≠ "" → opts.Keywords = [a, b] →
      a ≠ "" → b ≠ "" →
      buildFilter lib opts =
        " AND ".intercalate
          ["resource.type=\"cloud_run_revision\"",
           "resource.labels.service_name=\"" ++ opts.ServiceName ++ "\"",
           "timestamp>=\"" ++ lib.formatRFC3339 opts.StartTime ++ "\"",
           "timestamp<=\"" ++ lib.formatRFC3339 opts.EndTime ++ "\"",
           "severity>=\"" ++ opts.LogLevel ++ "\"",
           "textPayload:\"" ++ a ++ "\"",
           "textPayload:\"" ++ b ++ "\""]) := by
  have key : buildFilter lib opts = String.join (specFilterClauses lib opts) := by
    unfold buildFilter specFilterClauses
    simp only [foldl_keywordStep]
    by_cases h1 : opts.ServiceName = "" <;> by_cases h2 : opts.StartTime.IsZero = true <;>
      by_cases h3 : opts.EndTime.IsZero = true <;> by_cases h4 : opts.LogLevel = "" <;>
      simp [h1, h2, h3, h4, join_append, join_cons, join_nil, baseClause, serviceClause,
        startClause, endClause, severityClause, String.append_assoc] <;> rfl
  refine ⟨key, ?_⟩
  intro a b h1 h2 h3 h4 h5 ha hb
  rw [key]
  unfold specFilterClauses
  apply String.ext
  simp [h1, h2, h3, h4, h5, ha, hb, String.join_eq, String.intercalate, String.intercalate.go]


/-- Witness of C1: the sample options with every field populated and the
keywords `timeout`, `refused` give the seven clauses joined by `" AND "`. -/
theorem buildFilter_eq_spec_witness :
    buildFilter sampleLib sampleFullOpts =
      "resource.type=\"cloud_run_revision\" AND resource.labels.service_name=\"api\" AND timestamp>=\"2024-01-01T00:00:00Z\" AND timestamp<=\"2024-01-02T00:00:00Z\" AND severity>=\"ERROR\" AND textPayload:\"timeout\" AND textPayload:\"refused\"" :=
  ((buildFilter_eq_spec sampleLib sampleFullOpts).2 "timeout" "refused"
    (by decide) (by decide) (by decide) (by decide) rfl (by decide) (by decide)).trans
    rfl

/-- C2: when the service name and the level are empty, both times are zero and
there are no keywords, `buildFilter` returns exactly the base clause, whatever
the project id and the limit are; that string holds no blank, hence no
`" AND "`, and `buildFilter` never reads the project id or the limit. -/
theorem buildFilter_only_project (lib : GoLib) (opts : FilterOptions)
    (hService : opts.ServiceName = "") (hStart : opts.StartTime.IsZero = true)
    (hEnd : opts.EndTime.IsZero = true) (hLevel : opts.LogLevel = "")
    (hKeywords : opts.Keywords = []) :
    buildFilter lib opts = "resource.type=\"cloud_run_revision\"" ∧
    ' ' ∉ (buildFilter lib opts).data ∧
    ¬ " AND ".data <:+: (buildFilter lib opts).data ∧
    ∀ (projectID : String) (limit : Int),
      buildFilter lib { opts with ProjectID := projectID, Limit := limit } =
        buildFilter lib opts := by
  have key : buildFilter lib opts = "resource.type=\"cloud_run_revision\"" := by
    simp [buildFilter, hService, hStart, hEnd, hLevel, hKeywords, baseClause]
  have blank : ' ' ∉ (buildFilter lib opts).data := by
    rw [key]; decide
  refine ⟨key, blank, ?_, fun _ _ => rfl⟩
  intro h
  exact blank (h.subset (by decide))

/-- Witness of C2 at the sample options with only the project id set. -/
theorem buildFilter_only_project_witness :
    buildFilter sampleLib sampleProjectOnly = "resource.type=\"cloud_run_revision\"" :=
  (buildFilter_only_project sampleLib sampleProjectOnly rfl rfl rfl rfl rfl).1

/-- C3: empty keywords produce no clause. `buildFilter` gives the same string
when the empty strings are removed from `Keywords`; the keyword loop appends to
the filter built so far exactly one clause per non-empty keyword, in order, so
as many clauses as there are non-empty keywords; and a `Keywords` list of empty
strings only gives the same string as an empty list. -/
theorem buildFilter_skips_empty_keywords (lib : GoLib) (opts : FilterOptions) :
    buildFilter lib opts =
      buildFilter lib
        { opts with Keywords := opts.Keywords.filter (fun k => decide (k ≠ "")) } ∧
    (∀ filter : String, ∃ clauses : List String,
      opts.Keywords.foldl keywordStep filter = filter ++ String.join clauses ∧
      clauses = (opts.Keywords.filter (fun k => decide (k ≠ ""))).map
        (fun k => " AND textPayload:\"" ++ k ++ "\"") ∧
      clauses.length = opts.Keywords.countP (fun k => decide (k ≠ ""))) ∧
    ((∀ k ∈ opts.Keywords, k = "") →
      buildFilter lib opts = buildFilter lib { opts with Keywords := [] }) := by
  refine ⟨?_, ?_, ?_⟩
  · simp only [buildFilter, foldl_keywordStep, List.filter_filter, Bool.and_self]
  · intro filter
    refine ⟨_, foldl_keywordStep opts.Keywords filter, rfl, ?_⟩
    simp [List.countP_eq_length_filter]
  · intro h
    have hnil : opts.Keywords.filter (fun k => decide (k ≠ "")) = [] := by
      rw [List.filter_eq_nil_iff]
      intro k hk
      simp [h k hk]
    simp only [buildFilter, foldl_keywordStep, hnil, List.filter_nil]

/-- Witness of C3: three keywords, two of them empty. -/
theorem buildFilter_skips_empty_keywords_witness :
    buildFilter sampleLib { sampleProjectOnly with Keywords := ["", "timeout", ""] } =
      "resource.type=\"cloud_run_revision\" AND textPayload:\"timeout\"" ∧
    buildFilter sampleLib { sampleProjectOnly with Keywords := ["", ""] } =
      buildFilter sampleLib { sampleProjectOnly with Keywords := [] } :=
  ⟨(buildFilter_skips_empty_keywords sampleLib
      { sampleProjectOnly with Keywords := ["", "timeout", ""] }).1.trans (by decide),
   (buildFilter_skips_empty_keywords sampleLib
      { sampleProjectOnly with Keywords := ["", ""] }).2.2 (by decide)⟩


/-! ## The pull loop -/

/-- One turn of the loop on an iterator whose next result is a record. -/
theorem pullLoop_record (lib : GoLib) (limit : Int) (x : Entry) (rest : List NextResult)
    (entries : List LogEntry) (count : Int) (pulls : Nat) :
    pullLoop lib limit (NextResult.record x :: rest) entries count pulls =
      if limit > 0 ∧ count + 1 ≥ limit then
        { entries := some (entries ++ [toLogEntry lib x]), err := none, pulls := pulls + 1 }
      else
        pullLoop lib limit rest (entries ++ [toLogEntry lib x]) (count + 1) (pulls + 1) := by
  simp only [pullLoop]

/-- On an iterator that only yields records and then completes, the loop
returns a nil error. -/
theorem pullLoop_records_only_err (lib : GoLib) (limit : Int) (xs : List Entry)
    (entries : List LogEntry) (count : Int) (pulls : Nat) :
    (pullLoop lib limit (xs.map NextResult.record) entries count pulls).err = none := by
  induction xs generalizing entries count pulls with
  | nil => rfl
  | cons x xs ih =>
    rw [List.map_cons, pullLoop_record]
    split
    · rfl
    · exact ih _ _ _

/-- While the limit is not reached, a run of records is consumed whole: the
loop continues on the rest of the iterator with the run converted and
appended, `count` and `pulls` advanced by its length. -/
theorem pullLoop_records_below (lib : GoLib) (limit : Int) (xs : List Entry)
    (rest : List NextResult) (entries : List LogEntry) (count : Int) (pulls : Nat)
    (h : limit ≤ 0 ∨ count + xs.length < limit) :
    pullLoop lib limit (xs.map NextResult.record ++ rest) entries count pulls =
      pullLoop lib limit rest (entries ++ xs.map (toLogEntry lib))
        (count + xs.length) (pulls + xs.length) := by
  induction xs generalizing entries count pulls with
  | nil => simp
  | cons x xs ih =>
    have hnot : ¬ (limit > 0 ∧ count + 1 ≥ limit) := by
      rintro ⟨h1, h2⟩
      rcases h with h | h
      · omega
      · simp only [List.length_cons, Nat.cast_add, Nat.cast_one] at h
        omega
    have hrest : limit ≤ 0 ∨ count + 1 + xs.length < limit := by
      rcases h with h | h
      · exact Or.inl h
      · right
        simp only [List.length_cons, Nat.cast_add, Nat.cast_one] at h
        omega
    rw [List.map_cons, List.cons_append, pullLoop_record, if_neg hnot, ih _ _ _ hrest]
    simp only [List.length_cons, Nat.cast_add, Nat.cast_one, List.append_assoc,
      List.singleton_append]
    congr 1
    · omega
    · omega

/-- With a positive limit and `remaining + 1` entries still to go, an iterator
that starts with at least that many records stops right after them. -/
theorem pullLoop_records_reach (lib : GoLib) (limit : Int) (remaining : Nat)
    (xs : List Entry) (rest : List NextResult) (entries : List LogEntry) (count : Int)
    (pulls : Nat) (hlimit : limit = count + remaining + 1) (hpos : limit > 0)
    (hlen : remaining + 1 ≤ xs.length) :
    pullLoop lib limit (xs.map NextResult.record ++ rest) entries count pulls =
      { entries := some (entries ++ (xs.take (remaining + 1)).map (toLogEntry lib))
        err := none
        pulls := pulls + remaining + 1 } := by
  induction remaining generalizing xs entries count pulls with
  | zero =>
    match xs, hlen with
    | x :: xs, _ =>
      have hyes : limit > 0 ∧ count + 1 ≥ limit := ⟨hpos, by omega⟩
      rw [List.map_cons, List.cons_append, pullLoop_record, if_pos hyes]
      simp
  | succ r ih =>
    match xs, hlen with
    | x :: xs, hlen =>
      have hnot : ¬ (limit > 0 ∧ count + 1 ≥ limit) := by
        rintro ⟨_, h2⟩
        omega
      rw [List.map_cons, List.cons_append, pullLoop_record, if_neg hnot,
        ih xs _ (count + 1) _ (by omega) (by simpa using hlen)]
      simp [Nat.add_assoc, Nat.add_comm 1 r]

/-- C4: with a positive limit `n` and a source that yields the `k` records
`xs` and then completes, `GetCloudRunLogs` succeeds with the conversions of the
first `min n k` records in source order, so with at most `n` entries; it calls
`Next` exactly `n` times when `k ≥ n`, and `k + 1` times (the last call giving
the completion marker) when `k < n`. -/
theorem getCloudRunLogs_positive_limit (lib : GoLib) (backend : LogBackend)
    (opts : FilterOptions) (xs : List Entry)
    (hClient : backend.newClient opts.ProjectID = none)
    (hSource : backend.entries opts.ProjectID (buildFilter lib opts) =
      xs.map NextResult.record)
    (hLimit : opts.Limit > 0) :
    (GetCloudRunLogs lib backend opts).entries =
      some ((xs.take opts.Limit.toNat).map (toLogEntry lib)) ∧
    (GetCloudRunLogs lib backend opts).err = none ∧
    ((xs.take opts.Limit.toNat).map (toLogEntry lib)).length =
      min opts.Limit.toNat xs.length ∧
    (((xs.take opts.Limit.toNat).map (toLogEntry lib)).length : Int) ≤ opts.Limit ∧
    (opts.Limit ≤ xs.length → (GetCloudRunLogs lib backend opts).pulls = opts.Limit.toNat) ∧
    ((xs.length : Int) < opts.Limit →
      (GetCloudRunLogs lib backend opts).pulls = xs.length + 1) := by
  have hrun : GetCloudRunLogs lib backend opts =
      pullLoop lib opts.Limit (xs.map NextResult.record ++ []) [] 0 0 := by
    simp [GetCloudRunLogs, hClient, hSource]
  have hlen : ((xs.take opts.Limit.toNat).map (toLogEntry lib)).length =
      min opts.Limit.toNat xs.length := by simp
  by_cases hk : opts.Limit ≤ xs.length
  · obtain ⟨r, hr⟩ : ∃ r : Nat, opts.Limit = (0 : Int) + r + 1 :=
      ⟨(opts.Limit - 1).toNat, by omega⟩
    have hreach := pullLoop_records_reach lib opts.Limit r xs [] [] 0 0 hr hLimit (by omega)
    have hn : opts.Limit.toNat = r + 1 := by omega
    rw [hrun, hreach, hn]
    refine ⟨by simp, rfl, by simp, ?_, fun _ => by simp, fun h => by omega⟩
    simp only [List.length_map, List.length_take]
    omega
  · have hbelow := pullLoop_records_below lib opts.Limit xs [] [] 0 0 (Or.inr (by omega))
    have htake : xs.take opts.Limit.toNat = xs := List.take_of_length_le (by omega)
    rw [hrun, hbelow, htake]
    refine ⟨by simp [pullLoop], by simp [pullLoop], by simpa [htake] using hlen, ?_,
      fun h => absurd h hk, fun _ => by simp [pullLoop]⟩
    simp only [List.length_map]
    omega

/-- Witness of C4: limit 3 and a source yielding 10 records give the first 3
entries after 3 pulls. -/
theorem getCloudRunLogs_positive_limit_witness :
    (GetCloudRunLogs sampleLib
        (sampleLogBackend ((List.range 10).map (fun i => NextResult.record (sampleEntry i))))
        sampleFullOpts).entries =
      some [toLogEntry sampleLib (sampleEntry 0), toLogEntry sampleLib (sampleEntry 1),
        toLogEntry sampleLib (sampleEntry 2)] ∧
    (GetCloudRunLogs sampleLib
        (sampleLogBackend ((List.range 10).map (fun i => NextResult.record (sampleEntry i))))
        sampleFullOpts).pulls = 3 :=
  have h := getCloudRunLogs_positive_limit sampleLib
    (sampleLogBackend ((List.range 10).map (fun i => NextResult.record (sampleEntry i))))
    sampleFullOpts ((List.range 10).map sampleEntry) rfl rfl (by decide)
  ⟨h.1, h.2.2.2.2.1 (by decide)⟩

/-- C5: with a limit that is zero or negative and a source that yields the
`k` records `xs` and then completes, `GetCloudRunLogs` succeeds with exactly
the `k` conversions in source order after `k + 1` calls of `Next` (the last
one giving the completion marker); for `k = 0` the result is the empty,
non-nil sequence with a nil error. -/
theorem getCloudRunLogs_unbounded (lib : GoLib) (backend : LogBackend)
    (opts : FilterOptions) (xs : List Entry)
    (hClient : backend.newClient opts.ProjectID = none)
    (hSource : backend.entries opts.ProjectID (buildFilter lib opts) =
      xs.map NextResult.record)
    (hLimit : opts.Limit ≤ 0) :
    GetCloudRunLogs lib backend opts =
      { entries := some (xs.map (toLogEntry lib)), err := none, pulls := xs.length + 1 } ∧
    (xs.map (toLogEntry lib)).length = xs.length ∧
    (xs = [] → (GetCloudRunLogs lib backend opts).entries = some [] ∧
      (GetCloudRunLogs lib backend opts).err = none) := by
  have hrun : GetCloudRunLogs lib backend opts =
      { entries := some (xs.map (toLogEntry lib)), err := none, pulls := xs.length + 1 } := by
    have hbelow := pullLoop_records_below lib opts.Limit xs [] [] 0 0 (Or.inl hLimit)
    simp only [List.append_nil] at hbelow
    simp [GetCloudRunLogs, hClient, hSource, hbelow, pullLoop]
  refine ⟨hrun, by simp, ?_⟩
  intro hxs
  rw [hrun, hxs]
  exact ⟨rfl, rfl⟩

/-- Witness of C5: limit 0 (and limit -1) with a source of 10 records gives 10
entries after 11 pulls, and an empty source gives the empty non-nil sequence. -/
theorem getCloudRunLogs_unbounded_witness :
    GetCloudRunLogs sampleLib
        (sampleLogBackend ((List.range 10).map (fun i => NextResult.record (sampleEntry i))))
        (sampleLimitOpts 0) =
      { entries := some ((List.range 10).map (fun i => toLogEntry sampleLib (sampleEntry i)))
        err := none
        pulls := 11 } ∧
    (GetCloudRunLogs sampleLib (sampleLogBackend []) (sampleLimitOpts (-1))).entries = some [] :=
  ⟨(getCloudRunLogs_unbounded sampleLib
      (sampleLogBackend ((List.range 10).map (fun i => NextResult.record (sampleEntry i))))
      (sampleLimitOpts 0) ((List.range 10).map sampleEntry) rfl rfl (by decide)).1,
   ((getCloudRunLogs_unbounded sampleLib (sampleLogBackend []) (sampleLimitOpts (-1)) []
      rfl rfl (by decide)).2.2 rfl).1⟩

/-- C6: when the source fails with error `e` after yielding the `k` records
`xs`, and the limit is zero, negative or greater than `k`, `GetCloudRunLogs`
returns a nil entry sequence and the error `iter.Next: e`, after `k + 1` calls
of `Next`; the `k` entries converted so far are not returned. A source that
only yields records and then completes never gives an error. -/
theorem getCloudRunLogs_source_failure (lib : GoLib) (backend : LogBackend)
    (opts : FilterOptions) (xs : List Entry) (e : String) (rest : List NextResult)
    (hClient : backend.newClient opts.ProjectID = none) :
    (backend.entries opts.ProjectID (buildFilter lib opts) =
        xs.map NextResult.record ++ NextResult.failure e :: rest →
      (opts.Limit ≤ 0 ∨ (xs.length : Int) < opts.Limit) →
      GetCloudRunLogs lib backend opts =
        { entries := none, err := some ("iter.Next: " ++ e), pulls := xs.length + 1 }) ∧
    (backend.entries opts.ProjectID (buildFilter lib opts) = xs.map NextResult.record →
      (GetCloudRunLogs lib backend opts).err = none) := by
  constructor
  · intro hSource hLimit
    have hbelow := pullLoop_records_below lib opts.Limit xs (NextResult.failure e :: rest)
      [] 0 0 (by omega)
    simp [GetCloudRunLogs, hClient, hSource, hbelow, pullLoop]
  · intro hSource
    simp [GetCloudRunLogs, hClient, hSource, pullLoop_records_only_err]

/-- Witness of C6: a failure after 2 records, with no limit, gives no entries
and the wrapped error; 2 records and then completion give no error. -/
theorem getCloudRunLogs_source_failure_witness :
    GetCloudRunLogs sampleLib
        (sampleLogBackend [NextResult.record (sampleEntry 0), NextResult.record (sampleEntry 1),
          NextResult.failure "rpc error: code = Unavailable"])
        (sampleLimitOpts 0) =
      { entries := none, err := some "iter.Next: rpc error: code = Unavailable", pulls := 3 } ∧
    (GetCloudRunLogs sampleLib
        (sampleLogBackend [NextResult.record (sampleEntry 0), NextResult.record (sampleEntry 1)])
        (sampleLimitOpts 0)).err = none :=
  ⟨(getCloudRunLogs_source_failure sampleLib
      (sampleLogBackend [NextResult.record (sampleEntry 0), NextResult.record (sampleEntry 1),
        NextResult.failure "rpc error: code = Unavailable"])
      (sampleLimitOpts 0) [sampleEntry 0, sampleEntry 1] "rpc error: code = Unavailable" []
      rfl).1 rfl (Or.inl (by decide)),
   (getCloudRunLogs_source_failure sampleLib
      (sampleLogBackend [NextResult.record (sampleEntry 0), NextResult.record (sampleEntry 1)])
      (sampleLimitOpts 0) [sampleEntry 0, sampleEntry 1] "" [] rfl).2 rfl⟩

/-- The arms of the type switch as they are written: a `string` is the
message; a `map[string]interface{}` whose `message` key holds a string gives
that string, and any other one gives its printed form; a value of any other
dynamic type gives its printed form. -/
theorem payloadMessage_arms (lib : GoLib) :
    (∀ s, payloadMessage lib (Value.str s) = s) ∧
    (∀ m msg, goMapLookup m "message" = some (Value.str msg) →
      payloadMessage lib (Value.mapping m) = msg) ∧
    (∀ m, (goMapLookup m "message" = none ∨
        ∃ v, goMapLookup m "message" = some v ∧ ∀ s, v ≠ Value.str s) →
      payloadMessage lib (Value.mapping m) = lib.sprintV (Value.mapping m)) ∧
    (∀ fields, payloadMessage lib (Value.pbStruct fields) =
      lib.sprintV (Value.pbStruct fields)) ∧
    (∀ tag, payloadMessage lib (Value.other tag) = lib.sprintV (Value.other tag)) := by
  refine ⟨fun _ => rfl, ?_, ?_, fun _ => rfl, fun _ => rfl⟩
  · intro m msg hmsg
    simp [payloadMessage, hmsg]
  · intro m hcase
    rcases hcase with hnone | ⟨v, hv, hnot⟩
    · simp [payloadMessage, hnone]
    · cases v with
      | str s => exact absurd rfl (hnot s)
      | mapping m2 => simp [payloadMessage, hv]
      | pbStruct fields => simp [payloadMessage, hv]
      | other tag => simp [payloadMessage, hv]

/-- C7 (the code as it is): the converted entry copies the timestamp, the
severity label (`Severity.String()`) and the label mapping of the record, but
for a record with a JSON payload, which arrives as a `*structpb.Struct`, the
message is the printed form of the whole payload (`fmt.Sprintf("%v", p)` in
the `default` arm), also when the payload has a `message` field holding a
string: the `message` field is never extracted. -/
theorem toLogEntry_json_payload_printed (lib : GoLib) (entry : Entry)
    (fields : List (String × Value)) (hPayload : entry.Payload = Value.pbStruct fields) :
    (toLogEntry lib entry).Timestamp = entry.Timestamp ∧
    (toLogEntry lib entry).Severity = lib.severityString entry.Severity ∧
    (toLogEntry lib entry).Labels = entry.Labels ∧
    (toLogEntry lib entry).Message = lib.sprintV (Value.pbStruct fields) ∧
    (∀ msg, goMapLookup fields "message" = some (Value.str msg) →
      (toLogEntry lib entry).Message = lib.sprintV (Value.pbStruct fields)) := by
  have hmsg : (toLogEntry lib entry).Message = lib.sprintV (Value.pbStruct fields) := by
    simp only [toLogEntry, hPayload, payloadMessage]
  exact ⟨rfl, rfl, rfl, hmsg, fun _ _ => hmsg⟩

/-- Witness of C7 (the code as it is): the record with the JSON payload
`{"message": "hi"}` gets the text form of the payload as its message, not
`hi`. -/
theorem toLogEntry_json_payload_printed_witness :
    goMapLookup [("message", Value.str "hi")] "message" = some (Value.str "hi") ∧
    (toLogEntry sampleLib sampleJsonEntry).Message =
      "fields:\x7bkey:\"message\" value:\x7bstring_value:\"hi\"\x7d\x7d" ∧
    (toLogEntry sampleLib sampleJsonEntry).Message ≠ "hi" :=
  have h := (toLogEntry_json_payload_printed sampleLib sampleJsonEntry
    [("message", Value.str "hi")] rfl).2.2.2.2 "hi" rfl
  ⟨rfl, h.trans rfl, by rw [h]; decide⟩

/-! ## The service conversion -/

/-- An iteration panics exactly on a descriptor without conditions. -/
theorem convertItem_eq_none_iff (lib : GoLib) (now : Time) (region : String)
    (item : Service) :
    convertItem lib now region item = none ↔ item.Status.Conditions = [] := by
  unfold convertItem
  cases item.Status.Conditions <;> simp

/-- The fields of the record an iteration builds. -/
theorem convertItem_fields (lib : GoLib) (now : Time) (region : String) (item : Service)
    (s : ServiceInfo) (h : convertItem lib now region item = some s) :
    s.Name = item.Metadata.Name ∧ s.Region = region ∧
    s.Status = (item.Status.Conditions.map Condition.Status).headD "" ∧
    s.CreateTime = (lib.parseRFC3339 item.Metadata.CreationTimestamp).getD Time.zero ∧
    s.UpdateTime =
      if goMapGet item.Metadata.Annotations "client.knative.dev/user-image" = "" then
        (lib.parseRFC3339 item.Metadata.CreationTimestamp).getD Time.zero
      else now := by
  unfold convertItem at h
  cases hc : item.Status.Conditions with
  | nil => simp [hc] at h
  | cons first more =>
    simp only [hc, Option.some.injEq] at h
    subst h
    refine ⟨rfl, rfl, rfl, rfl, ?_⟩
    cases ha : item.Metadata.Annotations with
    | none => simp [goMapGet]
    | some bindings =>
      by_cases hg : goMapGet (some bindings) "client.knative.dev/user-image" = ""
      · simp [hg]
      · simp [hg]

/-- When every descriptor has a condition the loop converts them all, in
order, appending to the accumulator. -/
theorem convertItems_ok (lib : GoLib) (clock : Nat → Time) (region : String)
    (items : List Service) (index : Nat) (services : List ServiceInfo)
    (hConds : ∀ item ∈ items, item.Status.Conditions ≠ []) :
    ∃ out : List ServiceInfo,
      convertItems lib clock region items index services = some (services ++ out) ∧
      out.length = items.length ∧
      (∀ i item, items[i]? = some item →
        ∃ s, out[i]? = some s ∧ convertItem lib (clock (index + i)) region item = some s) := by
  induction items generalizing index services with
  | nil => exact ⟨[], by simp [convertItems], rfl, by simp⟩
  | cons item rest ih =>
    have hitem : item.Status.Conditions ≠ [] := hConds item (List.mem_cons_self _ _)
    cases hci : convertItem lib (clock index) region item with
    | none => exact absurd ((convertItem_eq_none_iff lib _ region item).1 hci) hitem
    | some s =>
      obtain ⟨out, hout, hlen, hget⟩ := ih (index + 1) (services ++ [s])
        (fun it hit => hConds it (List.mem_cons_of_mem _ hit))
      refine ⟨s :: out, ?_, by simp [hlen], ?_⟩
      · simp [convertItems, hci, hout]
      · intro i it hi
        cases i with
        | zero =>
          simp only [List.getElem?_cons_zero, Option.some.injEq] at hi
          subst hi
          exact ⟨s, by simp, by simpa using hci⟩
        | succ j =>
          simp only [List.getElem?_cons_succ] at hi
          obtain ⟨t, ht, hct⟩ := hget j it hi
          refine ⟨t, by simpa using ht, ?_⟩
          rw [← hct]
          congr 2
          omega

/-- When some descriptor has no condition the loop panics. -/
theorem convertItems_fault (lib : GoLib) (clock : Nat → Time) (region : String)
    (items : List Service) (index : Nat) (services : List ServiceInfo)
    (hEmpty : ∃ item ∈ items, item.Status.Conditions = []) :
    convertItems lib clock region items index services = none := by
  induction items generalizing index services with
  | nil => simp at hEmpty
  | cons item rest ih =>
    cases hci : convertItem lib (clock index) region item with
    | none => simp [convertItems, hci]
    | some s =>
      have hitem : item.Status.Conditions ≠ [] := fun h =>
        by simp [(convertItem_eq_none_iff lib (clock index) region item).2 h] at hci
      obtain ⟨it, hit, hnil⟩ := hEmpty
      rcases List.mem_cons.1 hit with h | h
      · exact absurd (h ▸ hnil) hitem
      · simp only [convertItems, hci]
        exact ih _ _ ⟨it, h, hnil⟩

/-- The call reduced to its loop, when the client is created and the listing
of the parent path succeeds. -/
theorem getCloudRunServices_eq (lib : GoLib) (backend : RunBackend)
    (projectID region : String) (items : List Service)
    (hClient : backend.newService = none)
    (hList : backend.list
        ("projects/" ++ projectID ++ "/locations/" ++
          (if region = "" then "us-central1" else region)) = Except.ok items) :
    GetCloudRunServices lib backend projectID region =
      match convertItems lib backend.clock (if region = "" then "us-central1" else region)
          items 0 [] with
      | none => Outcome.fault "index out of range [0] with length 0"
      | some services => Outcome.returned (some services) none := by
  have hreg : effectiveRegion region = if region = "" then "us-central1" else region := by
    by_cases h : region = "" <;> simp [effectiveRegion, h]
  simp only [GetCloudRunServices, hClient, parentPath, hreg, hList]

/-- Counterexample to C8 as stated: a descriptor whose creation timestamp does
not parse and which carries a non-empty `client.knative.dev/user-image`
annotation gets the zero creation time, but its update time is the reading of
the clock, not the zero time. -/
theorem getCloudRunServices_unparsable_update_now :
    sampleLib.parseRFC3339 "yesterday" = none ∧
    GetCloudRunServices sampleLib
        (sampleRunBackend
          [sampleService "api" "yesterday"
            (some [("client.knative.dev/user-image", "gcr.io/p/api")])])
        "my-project" "" =
      Outcome.returned
        (some [{ Name := "api", Description := "", URL := "https://api.a.run.app",
                 Status := "True", Region := "us-central1", CreateTime := Time.zero,
                 UpdateTime := sampleStart }])
        none ∧
    sampleStart ≠ Time.zero :=
  ⟨rfl, rfl, by decide⟩

/-- C8 (amended): when the client is created, the listing succeeds and every
descriptor has a condition, the call succeeds, and a descriptor whose creation
timestamp does not parse gives, at its position, a record with the zero
creation time, whose update time is the zero time when the
`client.knative.dev/user-image` annotation is absent or empty and the reading of
the clock otherwise. -/
theorem getCloudRunServices_unparsable_creation (lib : GoLib) (backend : RunBackend)
    (projectID region : String) (items : List Service)
    (hClient : backend.newService = none)
    (hList : backend.list
        ("projects/" ++ projectID ++ "/locations/" ++
          (if region = "" then "us-central1" else region)) = Except.ok items)
    (hConds : ∀ item ∈ items, item.Status.Conditions ≠ []) :
    ∃ services : List ServiceInfo,
      GetCloudRunServices lib backend projectID region =
        Outcome.returned (some services) none ∧
      ∀ i item, items[i]? = some item →
        lib.parseRFC3339 item.Metadata.CreationTimestamp = none →
        ∃ s, services[i]? = some s ∧ s.CreateTime = Time.zero ∧
          (goMapGet item.Metadata.Annotations "client.knative.dev/user-image" = "" →
            s.UpdateTime = Time.zero) ∧
          (goMapGet item.Metadata.Annotations "client.knative.dev/user-image" ≠ "" →
            s.UpdateTime = backend.clock i) := by
  obtain ⟨out, hout, _, hget⟩ := convertItems_ok lib backend.clock
    (if region = "" then "us-central1" else region) items 0 [] hConds
  refine ⟨out, ?_, ?_⟩
  · rw [getCloudRunServices_eq lib backend projectID region items hClient hList, hout]
    rfl
  · intro i item hi hparse
    obtain ⟨s, hs, hcs⟩ := hget i item hi
    obtain ⟨_, _, _, hcreate, hupdate⟩ := convertItem_fields lib _ _ item s hcs
    rw [hparse] at hcreate hupdate
    refine ⟨s, hs, hcreate, ?_, ?_⟩
    · intro ha
      rw [hupdate, if_pos ha]
      rfl
    · intro ha
      rw [hupdate, if_neg ha, Nat.zero_add]

/-- Witness of C8 (amended): an unparsable creation timestamp without the
image annotation gives zero creation and update times. -/
theorem getCloudRunServices_unparsable_creation_witness :
    ∃ services : List ServiceInfo,
      GetCloudRunServices sampleLib (sampleRunBackend [sampleService "api" "yesterday" none])
          "my-project" "" = Outcome.returned (some services) none ∧
      ∃ s, services[0]? = some s ∧ s.CreateTime = Time.zero ∧ s.UpdateTime = Time.zero :=
  have ⟨services, hrun, h⟩ := getCloudRunServices_unparsable_creation sampleLib
    (sampleRunBackend [sampleService "api" "yesterday" none]) "my-project" ""
    [sampleService "api" "yesterday" none] rfl rfl (by simp [sampleService])
  have ⟨s, hs, hcreate, hupdate, _⟩ := h 0 (sampleService "api" "yesterday" none) rfl rfl
  ⟨services, hrun, s, hs, hcreate, hupdate rfl⟩

/-- C9 (the code as it is): when the client is created and the listing succeeds
with a descriptor that has no condition, `item.Status.Conditions[0]` is out of
range and the call panics; no result is returned. -/
theorem getCloudRunServices_no_condition_faults (lib : GoLib) (backend : RunBackend)
    (projectID region : String) (items : List Service)
    (hClient : backend.newService = none)
    (hList : backend.list
        ("projects/" ++ projectID ++ "/locations/" ++
          (if region = "" then "us-central1" else region)) = Except.ok items)
    (hEmpty : ∃ item ∈ items, item.Status.Conditions = []) :
    GetCloudRunServices lib backend projectID region =
      Outcome.fault "index out of range [0] with length 0" := by
  rw [getCloudRunServices_eq lib backend projectID region items hClient hList,
    convertItems_fault lib backend.clock _ items 0 [] hEmpty]

/-- Witness of C9: a listing of one descriptor without conditions panics. -/
theorem getCloudRunServices_no_condition_faults_witness :
    GetCloudRunServices sampleLib (sampleRunBackend [sampleConditionless]) "my-project"
        "us-central1" = Outcome.fault "index out of range [0] with length 0" :=
  getCloudRunServices_no_condition_faults sampleLib (sampleRunBackend [sampleConditionless])
    "my-project" "us-central1" [sampleConditionless] rfl rfl
    ⟨sampleConditionless, by simp, rfl⟩

/-- C10: when the client is created and the listing of the parent path
`projects/<project>/locations/<region>`, built with the caller's region or with
`us-central1` when that is empty, succeeds with `m` descriptors that all have a
condition, the call returns exactly `m` records with a nil error, in
descriptor order (the record at a position is the conversion of the descriptor
at that position, so it has its name and the status of its first condition),
every record's region is the caller's region, or `us-central1` when that is
empty; and for `m = 0` the result is the empty sequence. -/
theorem getCloudRunServices_region (lib : GoLib) (backend : RunBackend)
    (projectID region : String) (items : List Service)
    (hClient : backend.newService = none)
    (hList : backend.list
        ("projects/" ++ projectID ++ "/locations/" ++
          (if region = "" then "us-central1" else region)) = Except.ok items)
    (hConds : ∀ item ∈ items, item.Status.Conditions ≠ []) :
    ∃ services : List ServiceInfo,
      GetCloudRunServices lib backend projectID region =
        Outcome.returned (some services) none ∧
      services.length = items.length ∧
      (∀ i item, items[i]? = some item →
        ∃ s, services[i]? = some s ∧
          convertItem lib (backend.clock i) (if region = "" then "us-central1" else region)
            item = some s ∧
          s.Name = item.Metadata.Name ∧
          s.Status = (item.Status.Conditions.map Condition.Status).headD "") ∧
      (∀ s ∈ services, s.Region = if region = "" then "us-central1" else region) ∧
      (items = [] → services = []) := by
  obtain ⟨out, hout, hlen, hget⟩ := convertItems_ok lib backend.clock
    (if region = "" then "us-central1" else region) items 0 [] hConds
  refine ⟨out, ?_, hlen, ?_, ?_, ?_⟩
  · rw [getCloudRunServices_eq lib backend projectID region items hClient hList, hout]
    rfl
  · intro i item hi
    obtain ⟨s, hs, hcs⟩ := hget i item hi
    rw [Nat.zero_add] at hcs
    obtain ⟨hname, _, hstatus, _, _⟩ := convertItem_fields lib _ _ item s hcs
    exact ⟨s, hs, hcs, hname, hstatus⟩
  · intro s hs
    obtain ⟨i, hi, hsi⟩ := List.getElem_of_mem hs
    have hi2 : i < items.length := hlen ▸ hi
    obtain ⟨t, ht, hct⟩ := hget i items[i] (List.getElem?_eq_getElem hi2)
    rw [List.getElem?_eq_getElem hi, Option.some.injEq, hsi] at ht
    subst ht
    exact (convertItem_fields lib _ _ _ s hct).2.1
  · intro hnil
    apply List.eq_nil_of_length_eq_zero
    rw [hlen, hnil]
    rfl

/-- Witness of C10: two descriptors and an empty region give two records in
order, both stamped `us-central1`. -/
theorem getCloudRunServices_region_witness :
    ∃ services : List ServiceInfo,
      GetCloudRunServices sampleLib
          (sampleRunBackend [sampleService "api" "2024-01-01T00:00:00Z" none,
            sampleService "worker" "2024-01-02T00:00:00Z" none])
          "my-project" "" = Outcome.returned (some services) none ∧
      services.length = 2 ∧
      ∀ s ∈ services, s.Region = "us-central1" :=
  have ⟨services, hrun, hlen, _, hregion, _⟩ := getCloudRunServices_region sampleLib
    (sampleRunBackend [sampleService "api" "2024-01-01T00:00:00Z" none,
      sampleService "worker" "2024-01-02T00:00:00Z" none])
    "my-project" ""
    [sampleService "api" "2024-01-01T00:00:00Z" none,
      sampleService "worker" "2024-01-02T00:00:00Z" none]
    rfl rfl (by simp [sampleService])
  ⟨services, hrun, hlen, hregion⟩

end CloudRunLogs
